import Mathlib

/-!
Verification of the futbol-base repository: a youth-football results portal
(static web app) fed by a scrape → SQLite → generated-JS pipeline.

The definitions below shallowly embed the code:
  * the SQLite reconciliation store helpers of scripts/db.py and the import
    scripts (get_or_create_team, get_or_create_group, the standings
    delete-then-insert, and the INSERT OR IGNORE match upsert);
  * the service-worker fetch handler (network-first for data files,
    cache-first for static assets);
  * the client-side derived views of app.js (getTeamForm, the global scorer
    ranking of renderGolTable, the matchday-label sort of
    renderJornadaContent) and the generator's matchday ordering.

Tables are embedded as lists of rows; SQLite row ids are modelled as natural
numbers allocated with max-id-plus-one freshness, matching rowid behaviour
for a single-writer batch process.
-/

namespace FutbolBase

/-! ### Generic stable insertion sort

JavaScript's Array.prototype.sort with a comparator and SQLite's ORDER BY are
modelled with a stable insertion sort parameterised by a strict Bool-valued
order: an element is inserted after every earlier element that is strictly
below it, so elements that compare equal keep their original order, matching
the stable sort the spec relies on. -/

def insertOrd (lt : α → α → Bool) (x : α) : List α → List α
  | [] => [x]
  | y :: ys => if lt y x then y :: insertOrd lt x ys else x :: y :: ys

def isortOrd (lt : α → α → Bool) : List α → List α
  | [] => []
  | x :: xs => insertOrd lt x (isortOrd lt xs)

theorem insertOrd_perm (lt : α → α → Bool) (x : α) (l : List α) :
    List.Perm (insertOrd lt x l) (x :: l) := by
  induction l with
  | nil => simp [insertOrd]
  | cons y ys ih =>
    by_cases h : lt y x = true
    · simp only [insertOrd, h, if_pos]
      exact ((ih.cons y).trans (List.Perm.swap x y ys))
    · simp [insertOrd, h]

theorem isortOrd_perm (lt : α → α → Bool) (l : List α) :
    List.Perm (isortOrd lt l) l := by
  induction l with
  | nil => simp [isortOrd]
  | cons x xs ih =>
    exact (insertOrd_perm lt x (isortOrd lt xs)).trans (ih.cons x)

/-- Sortedness of insertion: if lt is asymmetric and incomparability-closed
(the negation of lt is transitive), inserting into a list that is pairwise
non-descending stays pairwise non-descending. -/
theorem insertOrd_pairwise (lt : α → α → Bool)
    (hasym : ∀ a b, lt a b = true → lt b a = false)
    (hneg : ∀ a b c, lt c b = false → lt b a = false → lt c a = false)
    (x : α) (l : List α) (hl : l.Pairwise (fun a b => lt b a = false)) :
    (insertOrd lt x l).Pairwise (fun a b => lt b a = false) := by
  induction l with
  | nil => simp [insertOrd]
  | cons y ys ih =>
    rcases List.pairwise_cons.mp hl with ⟨hy, hys⟩
    by_cases h : lt y x = true
    · simp only [insertOrd, h, if_pos]
      refine List.pairwise_cons.mpr ⟨?_, ih hys⟩
      intro z hz
      have := (insertOrd_perm lt x ys).mem_iff.mp hz
      rcases List.mem_cons.mp this with hzx | hzys
      · subst hzx; exact hasym y z h
      · exact hy z hzys
    · have h' : lt y x = false := by
        cases hxy : lt y x with
        | false => rfl
        | true => exact absurd hxy h
      simp only [insertOrd, h', Bool.false_eq_true, if_neg, not_false_iff]
      refine List.pairwise_cons.mpr ⟨?_, hl⟩
      intro z hz
      rcases List.mem_cons.mp hz with hzy | hzys
      · subst hzy; exact h'
      · exact hneg x y z (hy z hzys) h'

theorem isortOrd_pairwise (lt : α → α → Bool)
    (hasym : ∀ a b, lt a b = true → lt b a = false)
    (hneg : ∀ a b c, lt c b = false → lt b a = false → lt c a = false)
    (l : List α) :
    (isortOrd lt l).Pairwise (fun a b => lt b a = false) := by
  induction l with
  | nil => simp [isortOrd]
  | cons x xs ih => exact insertOrd_pairwise lt hasym hneg x (isortOrd lt xs) ih

/-! ### Reconciliation store (scripts/db.py and the import scripts)

Rows of the SQLite tables are embedded as structures; a table is a list of
rows. Row ids are allocated as one more than the largest id present,
modelling SQLite rowid allocation for the single-writer batch pipeline. -/

/-- Row of the teams table: UNIQUE name, optional shield filename. -/
structure TeamRow where
  id : Nat
  name : String
  shield : Option String
  deriving DecidableEq, Repr

/-- Python truthiness of the optional shield_filename argument: None and the
empty string are falsy. -/
def truthyStr : Option String → Bool
  | none => false
  | some s => s ≠ ""

/-- Largest id plus one: the id SQLite assigns to a fresh row of the table. -/
def freshTeamId (db : List TeamRow) : Nat :=
  (db.map (fun t => t.id)).foldr max 0 + 1

/-- Embedding of get_or_create_team (scripts/db.py): look the team up by
exact name; if found, update its shield when the argument is truthy and
return its id; otherwise insert a new row and return the fresh id. Returns
the new table and the returned team id. -/
def get_or_create_team (db : List TeamRow) (n : String) (shield : Option String) :
    List TeamRow × Nat :=
  match db.find? (fun t => t.name == n) with
  | some t =>
      (if truthyStr shield then
        db.map (fun r => if r.id = t.id then { r with shield := shield } else r)
      else db, t.id)
  | none =>
      (db ++ [⟨freshTeamId db, n, shield⟩], freshTeamId db)

/-- Metadata columns of a groups row that get_or_create_group may patch;
none models an unset (or null) value. -/
structure GroupFields where
  name : Option String
  fullName : Option String
  phase : Option String
  island : Option String
  url : Option String
  currentJornada : Option String
  deriving DecidableEq, Repr

/-- Row of the groups table: UNIQUE (season_id, category_id, code). -/
structure GroupRow where
  id : Nat
  season : Nat
  category : Nat
  code : String
  fields : GroupFields
  deriving DecidableEq, Repr

/-- The patch-update of get_or_create_group: only keys whose value is not
None are written; every other column keeps its stored value. -/
def applyGroupPatch (f u : GroupFields) : GroupFields where
  name := match u.name with | some v => some v | none => f.name
  fullName := match u.fullName with | some v => some v | none => f.fullName
  phase := match u.phase with | some v => some v | none => f.phase
  island := match u.island with | some v => some v | none => f.island
  url := match u.url with | some v => some v | none => f.url
  currentJornada := match u.currentJornada with | some v => some v | none => f.currentJornada

def freshGroupId (db : List GroupRow) : Nat :=
  (db.map (fun g => g.id)).foldr max 0 + 1

/-- Embedding of get_or_create_group (scripts/db.py): look up by the natural
key (season, category, code); if found, UPDATE only the provided (non-None)
fields on that row; otherwise insert a row carrying the provided fields. -/
def get_or_create_group (db : List GroupRow) (s c : Nat) (code : String)
    (u : GroupFields) : List GroupRow × Nat :=
  match db.find? (fun g => g.season == s && g.category == c && g.code == code) with
  | some g =>
      (db.map (fun r => if r.id = g.id then { r with fields := applyGroupPatch r.fields u } else r),
       g.id)
  | none =>
      (db ++ [⟨freshGroupId db, s, c, code, u⟩], freshGroupId db)

/-- Payload of a standings row (everything but the group id): position,
team id and the aggregate counters, in schema order. -/
structure StandingData where
  team : Nat
  position : Nat
  points : Int
  played : Nat
  won : Nat
  drawn : Nat
  lost : Nat
  gf : Nat
  gc : Nat
  gd : Int
  deriving DecidableEq, Repr

/-- Row of the standings table. -/
structure StandingRow where
  group : Nat
  data : StandingData
  deriving DecidableEq, Repr

/-- Embedding of the standings refresh in import_category: DELETE FROM
standings WHERE group_id = g, then INSERT one row per element of the new
snapshot, each tagged with group id g. -/
def replaceStandings (db : List StandingRow) (g : Nat) (rows : List StandingData) :
    List StandingRow :=
  db.filter (fun r => !(r.group == g)) ++ rows.map (fun d => ⟨g, d⟩)

/-- The standings stored for a group: the rows whose group id matches. -/
def standingsFor (db : List StandingRow) (g : Nat) : List StandingRow :=
  db.filter (fun r => r.group == g)

/-- Row of the matches table: UNIQUE (group_id, jornada, home_team_id,
away_team_id); nullable scores mean "not yet played". -/
structure MatchRow where
  group : Nat
  jornada : String
  home : Nat
  away : Nat
  date : Option String
  time : Option String
  homeScore : Option Int
  awayScore : Option Int
  venue : Option String
  deriving DecidableEq, Repr

/-- The natural key of a matches row. -/
def matchKey (m : MatchRow) : Nat × String × Nat × Nat :=
  (m.group, m.jornada, m.home, m.away)

/-- Embedding of the INSERT OR IGNORE match upsert used by import_category
and import_history: insert the row unless a row with the same natural key
already exists, in which case the statement is ignored and the table is
untouched. -/
def upsertMatch (db : List MatchRow) (m : MatchRow) : List MatchRow :=
  if db.any (fun r => matchKey r == matchKey m) then db else db ++ [m]

/-! ### Service worker (sw.js, version v20260302c with the data-file branch)

A fetch is embedded as an already-settled promise: Except Unit SWResponse,
where error is an outright rejection (transport failure) and ok carries the
fulfilled response whatever its HTTP status. The cache is an association
list from request URL to response; put overwrites the entry for the URL. -/

/-- A fulfilled fetch response: HTTP status and body. An error status such
as 404 or 500 is still a fulfilled response. -/
structure SWResponse where
  status : Nat
  body : String
  deriving DecidableEq, Repr

abbrev SWCache := List (String × SWResponse)

def cacheLookup (c : SWCache) (url : String) : Option SWResponse :=
  (List.find? (fun p => p.1 == url) c).map (fun p => p.2)

/-- Cache.put: overwrite the entry for the URL, or append a new one. -/
def cachePut (c : SWCache) (url : String) (r : SWResponse) : SWCache :=
  if (List.any c (fun p => p.1 == url)) then
    List.map (fun p => if p.1 == url then (url, r) else p) c
  else
    c ++ [(url, r)]

/-- The DATA_FILES list of sw.js. -/
def DATA_FILES : List String :=
  ["data-benjamin", "data-prebenjamin", "data-history", "data-goleadores",
   "data-matchdetail", "data-shields"]

/-- Substring containment on character lists (String.prototype.includes). -/
def listInfix (needle : List Char) : List Char → Bool
  | [] => needle.isEmpty
  | c :: t => needle.isPrefixOf (c :: t) || listInfix needle t

/-- The isDataFile test of the fetch listener: the request URL contains one
of the DATA_FILES substrings. -/
def isDataFile (url : String) : Bool :=
  DATA_FILES.any (fun f => listInfix f.toList url.toList)

/-- Embedding of the sw.js fetch listener. Arguments: the worker origin,
the settled network fetch for the request, the current cache, and the
request URL. Returns the response delivered to the page (none models
respondWith(undefined), a network error surfaced to the page) and the cache
after the handler's writes.

Data-file branch: network-first — a fulfilled response is cached (put) and
returned; a rejected fetch falls back to caches.match(request).
Static branch: cache-first — a cache hit is returned untouched; on a miss
the fulfilled network response is returned, and additionally cached when the
request URL is same-origin; if the fetch rejected, fall back to the cached
root document. -/
def handleFetch (origin : String) (net : Except Unit SWResponse)
    (cache : SWCache) (url : String) : Option SWResponse × SWCache :=
  if isDataFile url then
    match net with
    | Except.ok r => (some r, cachePut cache url r)
    | Except.error _ => (cacheLookup cache url, cache)
  else
    match cacheLookup cache url with
    | some r => (some r, cache)
    | none =>
      match net with
      | Except.ok r =>
          if url.startsWith origin then (some r, cachePut cache url r)
          else (some r, cache)
      | Except.error _ => (cacheLookup cache "./index.html", cache)

/-! ### Client-side derived views (app.js) and generator ordering -/

/-- Decimal value of a list of digit characters (0 for the empty list). -/
def digitsToNat (l : List Char) : Nat :=
  l.foldl (fun acc c => acc * 10 + (c.toNat - 48)) 0

/-- Numeric suffix extraction of app.js: parseInt(label.replace(/\D/g, ''))
— strip every non-digit character and parse what remains as a decimal
number (0 when no digits remain). -/
def jorNumOf (s : String) : Nat :=
  digitsToNat (s.toList.filter Char.isDigit)

/-- The matchday-pill sort of renderJornadaContent (app.js): sort the
matchday labels by their extracted numeric suffix, ascending. -/
def sortJornadasClient (labels : List String) : List String :=
  isortOrd (fun a b => jorNumOf a < jorNumOf b) labels

/-- SQLite CAST(text AS INTEGER): skip leading spaces, read an optional
sign and then the longest prefix of decimal digits; 0 when there are none. -/
def sqliteCastInt (s : String) : Int :=
  let t := s.toList.dropWhile (fun ch => ch == ' ')
  match t with
  | '-' :: rest => -(Int.ofNat (digitsToNat (rest.takeWhile Char.isDigit)))
  | '+' :: rest => Int.ofNat (digitsToNat (rest.takeWhile Char.isDigit))
  | _ => Int.ofNat (digitsToNat (t.takeWhile Char.isDigit))

/-- Fuelled worker for replaceList; the fuel starts at the list length and
is enough because every step consumes at least one character. -/
def replaceFuel (pat repl : List Char) : Nat → List Char → List Char
  | 0, l => l
  | _ + 1, [] => []
  | fuel + 1, c :: t =>
    if pat.isPrefixOf (c :: t) && !pat.isEmpty then
      repl ++ replaceFuel pat repl fuel (List.drop (pat.length - 1) t)
    else c :: replaceFuel pat repl fuel t

/-- SQLite REPLACE: substitute every (left-to-right, non-overlapping)
occurrence of pat by repl; an empty pattern leaves the string unchanged. -/
def replaceList (pat repl l : List Char) : List Char :=
  replaceFuel pat repl l.length l

/-- The ORDER BY key of generate_history (scripts/generate_js.py):
CAST(REPLACE(REPLACE(jornada, 'Jornada ', ''), 'JORNADA ', '') AS INTEGER). -/
def genJorKey (s : String) : Int :=
  sqliteCastInt (List.asString
    (replaceList "JORNADA ".toList [] (replaceList "Jornada ".toList [] s.toList)))

/-- The matchday ordering of the history projection generator: the distinct
matchday labels sorted by genJorKey ascending. -/
def sortJornadasGen (labels : List String) : List String :=
  isortOrd (fun a b => genJorKey a < genJorKey b) labels

/-- One entry of a HISTORY matchday list: [date, home, away, hs, as], with
null scores for an unplayed match. -/
structure HMatch where
  date : String
  home : String
  away : String
  homeScore : Option Int
  awayScore : Option Int
  deriving DecidableEq, Repr

/-- A match outcome from the inspected team's perspective. -/
inductive FormRes where
  | W
  | D
  | L
  deriving DecidableEq, Repr

/-- The record getTeamForm pushes per scored match of the team: the numeric
matchday, the date and the derived result. -/
structure FormEntry where
  jn : Nat
  date : String
  res : FormRes
  deriving DecidableEq, Repr

/-- The per-matchday scan of getTeamForm: keep the matches with both scores
present that involve the team, and derive W/D/L from the team's
perspective (isHome compares the home name with the team name). -/
def formEntriesOf (team : String) (j : Nat) : List HMatch → List FormEntry
  | [] => []
  | m :: ms =>
    match m.homeScore, m.awayScore with
    | some hs, some as2 =>
        if m.home == team || m.away == team then
          let isHome := m.home == team
          let gf := if isHome then hs else as2
          let gc := if isHome then as2 else hs
          let res := if gf > gc then FormRes.W else if gf < gc then FormRes.L else FormRes.D
          ⟨j, m.date, res⟩ :: formEntriesOf team j ms
        else formEntriesOf team j ms
    | _, _ => formEntriesOf team j ms

/-- Collect the form entries over all matchdays of a group's HISTORY, in
object iteration order, with each matchday's numeric label attached. -/
def formEntries (team : String) : List (String × List HMatch) → List FormEntry
  | [] => []
  | (jn, ms) :: rest => formEntriesOf team (jorNumOf jn) ms ++ formEntries team rest

/-- The comparator of getTeamForm: ascending numeric matchday, ties broken
by date (lexicographic). -/
def formLt (a b : FormEntry) : Bool :=
  decide (a.jn < b.jn) || (a.jn == b.jn && decide (a.date < b.date))

/-- Embedding of getTeamForm (app.js): n = n || 5, scan the group's HISTORY
for the team's scored matches, sort by matchday then date, and return the
last n entries (slice(-n)). -/
def getTeamForm (hist : List (String × List HMatch)) (team : String) (n : Nat) :
    List FormEntry :=
  let nn := if n = 0 then 5 else n
  let sorted := isortOrd formLt (formEntries team hist)
  sorted.drop (sorted.length - nn)

/-- One row of a per-group scorer list: [player, team, goals, games]. -/
structure ScorerRow where
  player : String
  team : String
  goals : Int
  games : Int
  deriving DecidableEq, Repr

/-- A scorer row tagged with its originating group, as built by the global
branch of renderGolTable. -/
structure TaggedScorer where
  player : String
  team : String
  goals : Int
  games : Int
  group : String
  deriving DecidableEq, Repr

/-- Merge every group's scorer list, tagging each row with the group name
(the forEach double loop of renderGolTable). -/
def mergeTagScorers : List (String × List ScorerRow) → List TaggedScorer
  | [] => []
  | (g, rows) :: rest =>
      rows.map (fun s => ⟨s.player, s.team, s.goals, s.games, g⟩) ++ mergeTagScorers rest

/-- The comparator of the global scorer sort: goals descending, then games
ascending. -/
def scorerLt (a b : TaggedScorer) : Bool :=
  decide (b.goals < a.goals) || (a.goals == b.goals && decide (a.games < b.games))

/-- Embedding of the global branch of renderGolTable (app.js): merge all
groups with tags, sort by goals descending then games ascending (stable),
keep the first 30 rows. -/
def globalScorers (golData : List (String × List ScorerRow)) : List TaggedScorer :=
  (isortOrd scorerLt (mergeTagScorers golData)).take 30

/-- The client selection state S of app.js; the field S.section is named
sect here because section is a Lean keyword. -/
structure AppState where
  cat : String
  sect : String
  search : String
  jorGroup : String
  jorNum : String
  golGroup : String
  island : String
  deriving DecidableEq, Repr

/-- Embedding of the section-tab click handler of bindEvents (app.js):
S.section = tab.dataset.section; if the new section is the jornadas tab,
additionally S.jorNum = '' (every other field is untouched). -/
def sectionTabClick (s : AppState) (target : String) : AppState :=
  let s1 := { s with sect := target }
  if s1.sect == "jornadas" then { s1 with jorNum := "" } else s1

/-! ### Helper lemmas -/

theorem mem_le_foldr_max (l : List Nat) (x : Nat) (hx : x ∈ l) :
    x ≤ l.foldr max 0 := by
  induction l with
  | nil => cases hx
  | cons y ys ih =>
    rcases List.mem_cons.mp hx with h | h
    · subst h; exact le_max_left _ _
    · exact le_trans (ih h) (le_max_right _ _)

theorem teamRow_id_lt_fresh (db : List TeamRow) (r : TeamRow) (hr : r ∈ db) :
    r.id < freshTeamId db :=
  Nat.lt_succ_of_le (mem_le_foldr_max _ _ (List.mem_map_of_mem (fun t => t.id) hr))

/-! ### Claim theorems -/

/-- C1: a match upsert with the natural key (group, matchday, home, away) of
a row already in the matches table — even one with null scores — is a no-op:
the table after the call equals the table before it, so no row is inserted
and the existing row's scores, date, time and venue are untouched. -/
theorem upsertMatch_existing_noop (db : List MatchRow) (m r : MatchRow)
    (hr : r ∈ db) (hk : matchKey r = matchKey m) :
    upsertMatch db m = db := by
  have h : db.any (fun x => matchKey x == matchKey m) = true :=
    List.any_eq_true.mpr ⟨r, hr, by rw [hk]; simp⟩
  simp [upsertMatch, h]

/-- Concrete fixture row scraped before kickoff: null scores, null venue. -/
def exFixture : MatchRow :=
  ⟨1, "Jornada 3", 10, 11, some "07/02", some "10:00", none, none, none⟩

/-- The same natural key re-scraped after kickoff, now carrying scores. -/
def exRescrape : MatchRow :=
  ⟨1, "Jornada 3", 10, 11, some "07/02", some "12:00", some 2, some 1, some "Campo 1"⟩

/-- Witness for C1: re-upserting the played result over the stored null-score
fixture leaves the table exactly as it was. -/
theorem upsertMatch_existing_noop_witness :
    upsertMatch [exFixture] exRescrape = [exFixture] :=
  upsertMatch_existing_noop [exFixture] exRescrape exFixture (by simp) (by rfl)

/-- C3: after replaceStandings for group g with snapshot rows, the standings
stored for g are exactly the new rows (no row of the prior snapshot
survives), and the standings of every other group are unchanged. -/
theorem replaceStandings_exact (db : List StandingRow) (g : Nat)
    (rows : List StandingData) :
    (standingsFor (replaceStandings db g rows) g).map (fun r => r.data) = rows ∧
    ∀ g', g' ≠ g →
      standingsFor (replaceStandings db g rows) g' = standingsFor db g' := by
  constructor
  · simp only [standingsFor, replaceStandings, List.filter_append]
    rw [List.filter_filter]
    have h1 : List.filter
        (fun a => (a.group == g) && !(a.group == g)) db = [] := by
      apply List.filter_eq_nil_iff.mpr
      intro a _
      simp
    rw [h1, List.nil_append, List.filter_map]
    have h2 : List.filter ((fun r => r.group == g) ∘ fun d => (⟨g, d⟩ : StandingRow)) rows
        = rows := by
      apply List.filter_eq_self.mpr
      intro a _
      simp [Function.comp]
    rw [h2, List.map_map]
    have h4 : ((fun r => r.data) ∘ fun d => (⟨g, d⟩ : StandingRow)) = id := rfl
    rw [h4, List.map_id]
  · intro g' hg'
    simp only [standingsFor, replaceStandings, List.filter_append]
    rw [List.filter_filter, List.filter_map]
    have h3 : List.filter ((fun r => r.group == g') ∘ fun d => (⟨g, d⟩ : StandingRow)) rows
        = [] := by
      apply List.filter_eq_nil_iff.mpr
      intro a _
      simp [Function.comp]
      exact fun h => absurd h.symm hg'
    rw [h3]
    simp only [List.map_nil, List.append_nil]
    apply List.filter_congr
    intro a _
    by_cases h : a.group = g'
    · simp [h, beq_eq_false_iff_ne]
      omega
    · simp [h]

/-- Concrete standings snapshots for the C3 witness. -/
def exSnapA : StandingData := ⟨10, 1, 9, 3, 3, 0, 0, 7, 1, 6⟩

def exSnapB : StandingData := ⟨11, 1, 12, 4, 4, 0, 0, 9, 2, 7⟩

/-- Witness for C3: replacing group 1's snapshot [exSnapA] with [exSnapB]
leaves exactly [exSnapB] for group 1 and group 2's row untouched. -/
theorem replaceStandings_exact_witness :
    (standingsFor (replaceStandings [⟨1, exSnapA⟩, ⟨2, exSnapA⟩] 1 [exSnapB]) 1).map
        (fun r => r.data) = [exSnapB] ∧
    standingsFor (replaceStandings [⟨1, exSnapA⟩, ⟨2, exSnapA⟩] 1 [exSnapB]) 2 =
      standingsFor [⟨1, exSnapA⟩, ⟨2, exSnapA⟩] 2 :=
  ⟨(replaceStandings_exact [⟨1, exSnapA⟩, ⟨2, exSnapA⟩] 1 [exSnapB]).1,
   (replaceStandings_exact [⟨1, exSnapA⟩, ⟨2, exSnapA⟩] 1 [exSnapB]).2 2 (by decide)⟩

/-- C4: get_or_create_team is idempotent — repeating a call with the same
name (and same shield argument) changes nothing: the second call leaves the
teams table exactly as the first call left it and returns the same id, and
the first call adds at most one row, so the pair of calls creates at most
one teams row for the name. -/
theorem get_or_create_team_idempotent (db : List TeamRow) (n : String)
    (shield : Option String) :
    (get_or_create_team (get_or_create_team db n shield).1 n shield).1 =
      (get_or_create_team db n shield).1 ∧
    (get_or_create_team (get_or_create_team db n shield).1 n shield).2 =
      (get_or_create_team db n shield).2 ∧
    (get_or_create_team db n shield).1.length ≤ db.length + 1 := by
  cases hf : db.find? (fun t => t.name == n) with
  | some t =>
    cases hs : truthyStr shield with
    | false =>
      simp only [get_or_create_team, hf, hs, if_neg, Bool.false_eq_true, not_false_iff]
      simp [hf, hs]
    | true =>
      have hpres : (fun x => (if x.id = t.id then { x with shield := shield } else x).name == n)
          = (fun x : TeamRow => x.name == n) := by
        funext x
        by_cases hx : x.id = t.id <;> simp [hx]
      have hfind2 : (db.map (fun r =>
          if r.id = t.id then { r with shield := shield } else r)).find?
            (fun x => x.name == n)
          = some (if t.id = t.id then { t with shield := shield } else t) := by
        rw [List.find?_map]
        show Option.map _ (db.find? (fun x =>
          (if x.id = t.id then { x with shield := shield } else x).name == n)) = _
        rw [hpres, hf]
        rfl
      have hff : ∀ r : TeamRow,
          (fun x => if x.id = t.id then { x with shield := shield } else x)
            ((fun x => if x.id = t.id then { x with shield := shield } else x) r)
          = (fun x => if x.id = t.id then { x with shield := shield } else x) r := by
        intro r
        by_cases hr : r.id = t.id <;> simp [hr]
      simp only [get_or_create_team, hf, hs, hfind2, if_true]
      refine ⟨?_, by simp, by simp⟩
      rw [List.map_map]
      refine List.map_congr_left ?_
      intro a _
      exact hff a
  | none =>
    have hnew : (fun x : TeamRow => x.name == n) (⟨freshTeamId db, n, shield⟩ : TeamRow)
        = true := by simp
    have hfind2 : (db ++ [(⟨freshTeamId db, n, shield⟩ : TeamRow)]).find?
        (fun x => x.name == n) = some ⟨freshTeamId db, n, shield⟩ := by
      rw [List.find?_append, hf]
      simp
    cases hs : truthyStr shield with
    | false =>
      simp only [get_or_create_team, hf, hs, hfind2]
      simp
    | true =>
      simp only [get_or_create_team, hf, hs, hfind2, if_true]
      refine ⟨?_, by simp, by simp⟩
      have hmapdb : db.map (fun r =>
          if r.id = freshTeamId db then { r with shield := shield } else r) = db := by
        rw [show db = db.map id by simp]
        rw [List.map_map]
        refine List.map_congr_left ?_
        intro a ha
        have : a.id < freshTeamId db := teamRow_id_lt_fresh db a (by simpa using ha)
        simp [Nat.ne_of_lt this]
      rw [List.map_append, hmapdb]
      simp

/-- C8: for an existing group found by its natural key (season, category,
code), get_or_create_group patch-updates exactly that row via
applyGroupPatch and returns its id, and the patch writes only provided
fields: a field passed as None keeps its previous stored value, so it is
never overwritten with null. -/
theorem get_or_create_group_patch (db : List GroupRow) (s c : Nat) (code : String)
    (u : GroupFields) (g : GroupRow)
    (hf : db.find? (fun r => r.season == s && r.category == c && r.code == code) = some g) :
    (get_or_create_group db s c code u).1 =
      db.map (fun r =>
        if r.id = g.id then { r with fields := applyGroupPatch r.fields u } else r) ∧
    (get_or_create_group db s c code u).2 = g.id ∧
    ∀ f : GroupFields,
      (u.name = none → (applyGroupPatch f u).name = f.name) ∧
      (u.fullName = none → (applyGroupPatch f u).fullName = f.fullName) ∧
      (u.phase = none → (applyGroupPatch f u).phase = f.phase) ∧
      (u.island = none → (applyGroupPatch f u).island = f.island) ∧
      (u.url = none → (applyGroupPatch f u).url = f.url) ∧
      (u.currentJornada = none →
        (applyGroupPatch f u).currentJornada = f.currentJornada) := by
  refine ⟨by simp [get_or_create_group, hf], by simp [get_or_create_group, hf], ?_⟩
  intro f
  refine ⟨fun h => ?_, fun h => ?_, fun h => ?_, fun h => ?_, fun h => ?_, fun h => ?_⟩
  all_goals simp [applyGroupPatch, h]

/-- Stored metadata of the C8 witness group before the patch call. -/
def exGroupFields : GroupFields :=
  ⟨some "A2", some "Benjamín A2", some "Fase 1", some "grancanaria",
   some "https://g", some "Jornada 5"⟩

/-- A patch providing only the current matchday; every other field unset. -/
def exGroupPatch : GroupFields := ⟨none, none, none, none, none, some "Jornada 6"⟩

/-- Witness for C8: patching group (1, 2, "A2") with only a new matchday
label returns its id, rewrites just that row, and keeps the stored island
value because the island field was not provided. -/
theorem get_or_create_group_patch_witness :
    (get_or_create_group [⟨7, 1, 2, "A2", exGroupFields⟩] 1 2 "A2" exGroupPatch).2 = 7 ∧
    (applyGroupPatch exGroupFields exGroupPatch).island = exGroupFields.island :=
  ⟨(get_or_create_group_patch [⟨7, 1, 2, "A2", exGroupFields⟩] 1 2 "A2" exGroupPatch
      ⟨7, 1, 2, "A2", exGroupFields⟩ (by rfl)).2.1,
   ((get_or_create_group_patch [⟨7, 1, 2, "A2", exGroupFields⟩] 1 2 "A2" exGroupPatch
      ⟨7, 1, 2, "A2", exGroupFields⟩ (by rfl)).2.2 exGroupFields).2.2.2.1 (by rfl)⟩

/-- After cachePut the cache maps the URL to the stored response, whatever
was there before. -/
theorem cacheLookup_cachePut (c : SWCache) (url : String) (r : SWResponse) :
    cacheLookup (cachePut c url r) url = some r := by
  unfold cachePut
  cases hany : List.any c (fun p => p.1 == url) with
  | false =>
    have hnone : List.find? (fun p : String × SWResponse => p.1 == url) c = none := by
      rw [List.find?_eq_none]
      intro x hx hpx
      have : List.any c (fun p => p.1 == url) = true := List.any_eq_true.mpr ⟨x, hx, hpx⟩
      rw [hany] at this
      cases this
    simp [cacheLookup, List.find?_append, hnone]
  | true =>
    simp only [if_true]
    have hpres : (fun q : String × SWResponse =>
        (if q.1 == url then (url, r) else q).1 == url)
        = fun q : String × SWResponse => q.1 == url := by
      funext q
      cases hq : (q.1 == url) with
      | true => simp [hq]
      | false => simp [hq]
    cases hfind : List.find? (fun p : String × SWResponse => p.1 == url) c with
    | none =>
      rw [List.find?_eq_none] at hfind
      obtain ⟨x, hx, hpx⟩ := List.any_eq_true.mp hany
      exact absurd hpx (hfind x hx)
    | some q =>
      have hq := List.find?_some hfind
      unfold cacheLookup
      rw [List.find?_map]
      show (Option.map _ (List.find? (fun p : String × SWResponse =>
        (if p.1 == url then (url, r) else p).1 == url) c)).map _ = _
      rw [hpres, hfind]
      have heq : q.1 = url := by simpa using hq
      simp [heq]

/-- C2: on the data-file path the fetch handler is network-first — a
fulfilled network fetch hands its response to the caller and writes it into
the cache for that request (the subsequent lookup returns it); only an
outright rejection of the fetch returns the previously cached copy when one
exists, leaving the cache untouched. -/
theorem handleFetch_dataFile_networkFirst (origin url : String) (cache : SWCache)
    (r : SWResponse) (hd : isDataFile url = true) :
    handleFetch origin (Except.ok r) cache url = (some r, cachePut cache url r) ∧
    cacheLookup (cachePut cache url r) url = some r ∧
    handleFetch origin (Except.error ()) cache url = (cacheLookup cache url, cache) := by
  refine ⟨?_, cacheLookup_cachePut cache url r, ?_⟩ <;> simp [handleFetch, hd]

/-- Concrete data-file URL of the deployed app. -/
def exDataUrl : String := "https://example.test/futbol-base/data-benjamin.js"

/-- A fresh network copy of the data file. -/
def exFresh : SWResponse := ⟨200, "const BENJAMIN=[2];"⟩

/-- The previously cached copy of the data file. -/
def exStale : SWResponse := ⟨200, "const BENJAMIN=[1];"⟩

/-- Witness for C2 at a concrete data-file request with a cached copy. -/
theorem handleFetch_dataFile_networkFirst_witness :
    handleFetch "https://example.test" (Except.ok exFresh) [(exDataUrl, exStale)] exDataUrl
      = (some exFresh, cachePut [(exDataUrl, exStale)] exDataUrl exFresh) ∧
    cacheLookup (cachePut [(exDataUrl, exStale)] exDataUrl exFresh) exDataUrl = some exFresh ∧
    handleFetch "https://example.test" (Except.error ()) [(exDataUrl, exStale)] exDataUrl
      = (cacheLookup [(exDataUrl, exStale)] exDataUrl, [(exDataUrl, exStale)]) :=
  handleFetch_dataFile_networkFirst "https://example.test" exDataUrl
    [(exDataUrl, exStale)] exFresh (by decide)

/-- C10: on the data-file path every fulfilled response — the status is
universally quantified, so 404 or 500 and cross-origin responses are
included, and no origin check is made on this branch — is returned to the
caller and overwrites the previously cached copy for the request; the
cached fallback is consulted only when the fetch rejects. -/
theorem handleFetch_dataFile_fulfilled_overwrites (origin url : String)
    (cache : SWCache) (r old : SWResponse) (hd : isDataFile url = true)
    (hold : cacheLookup cache url = some old) :
    (handleFetch origin (Except.ok r) cache url).1 = some r ∧
    cacheLookup (handleFetch origin (Except.ok r) cache url).2 url = some r ∧
    (handleFetch origin (Except.error ()) cache url).1 = some old := by
  refine ⟨by simp [handleFetch, hd], ?_, by simp [handleFetch, hd, hold]⟩
  have h1 : (handleFetch origin (Except.ok r) cache url).2 = cachePut cache url r := by
    simp [handleFetch, hd]
  rw [h1]
  exact cacheLookup_cachePut cache url r

/-- A cross-origin 404 network response. -/
def exNotFound : SWResponse := ⟨404, "Not Found"⟩

/-- Witness for C10: a fulfilled 404 is delivered to the page and replaces
the cached 200 copy for the data-file request. -/
theorem handleFetch_dataFile_fulfilled_overwrites_witness :
    (handleFetch "https://other.origin" (Except.ok exNotFound)
        [(exDataUrl, exStale)] exDataUrl).1 = some exNotFound ∧
    cacheLookup (handleFetch "https://other.origin" (Except.ok exNotFound)
        [(exDataUrl, exStale)] exDataUrl).2 exDataUrl = some exNotFound ∧
    (handleFetch "https://other.origin" (Except.error ())
        [(exDataUrl, exStale)] exDataUrl).1 = some exStale :=
  handleFetch_dataFile_fulfilled_overwrites "https://other.origin" exDataUrl
    [(exDataUrl, exStale)] exNotFound exStale (by decide) (by decide)

/-- A one-match-per-matchday history over 7 matchdays in which team T's
results, in matchday order, are exactly W, L, D, W, W, L, D; the opponent
name and the match dates are arbitrary. -/
def mkHist7 (T o d1 d2 d3 d4 d5 d6 d7 : String) : List (String × List HMatch) :=
  [("Jornada 1", [⟨d1, T, o, some 1, some 0⟩]),
   ("Jornada 2", [⟨d2, T, o, some 0, some 1⟩]),
   ("Jornada 3", [⟨d3, T, o, some 0, some 0⟩]),
   ("Jornada 4", [⟨d4, T, o, some 1, some 0⟩]),
   ("Jornada 5", [⟨d5, T, o, some 2, some 0⟩]),
   ("Jornada 6", [⟨d6, T, o, some 0, some 3⟩]),
   ("Jornada 7", [⟨d7, T, o, some 2, some 2⟩])]

/-- C5 counterexample: on a concrete history realizing exactly the results
W, L, D, W, W, L, D in matchday order (checked by the window-7 request),
the window-5 form is not the [L, W, W, L, D] the specification asserts:
slice(-5) of seven results starts at the third result, which is a D. -/
theorem getTeamForm_last5_spec_counterexample :
    (getTeamForm (mkHist7 "CD Ejemplo" "UD Rival" "01" "02" "03" "04" "05" "06" "07")
        "CD Ejemplo" 7).map (fun e => e.res) =
      [FormRes.W, FormRes.L, FormRes.D, FormRes.W, FormRes.W, FormRes.L, FormRes.D] ∧
    (getTeamForm (mkHist7 "CD Ejemplo" "UD Rival" "01" "02" "03" "04" "05" "06" "07")
        "CD Ejemplo" 5).map (fun e => e.res) ≠
      [FormRes.L, FormRes.W, FormRes.W, FormRes.L, FormRes.D] := by
  constructor <;> decide

/-- C5 (amended): for any team T, opponent name and dates, with T's scored
history in matchday order being exactly W, L, D, W, W, L, D, requesting the
form with window 5 returns the last five outcomes [D, W, W, L, D], oldest
of the window first. -/
theorem getTeamForm_last5_of_seven (T o d1 d2 d3 d4 d5 d6 d7 : String) :
    (getTeamForm (mkHist7 T o d1 d2 d3 d4 d5 d6 d7) T 5).map (fun e => e.res) =
      [FormRes.D, FormRes.W, FormRes.W, FormRes.L, FormRes.D] := by
  simp [getTeamForm, mkHist7, formEntries, formEntriesOf, formLt, jorNumOf,
    digitsToNat, isortOrd, insertOrd]

/-- C6: the global scorer ranking keeps at most 30 rows, is exactly the
30-prefix of the stable sort of the group-tagged merge of every per-group
list, is ordered by goals descending then games ascending, and on the
concrete scorers P1 (5 goals, 3 games), P2 (5, 2), P3 (7, 4) it returns the
order [P3, P2, P1]. -/
theorem globalScorers_spec (golData : List (String × List ScorerRow)) :
    (globalScorers golData).length ≤ 30 ∧
    globalScorers golData = (isortOrd scorerLt (mergeTagScorers golData)).take 30 ∧
    List.Perm (isortOrd scorerLt (mergeTagScorers golData)) (mergeTagScorers golData) ∧
    (globalScorers golData).Pairwise (fun a b =>
      b.goals < a.goals ∨ (a.goals = b.goals ∧ a.games ≤ b.games)) ∧
    (globalScorers [("G1", [⟨"P1", "T1", 5, 3⟩, ⟨"P2", "T2", 5, 2⟩]),
        ("G2", [⟨"P3", "T3", 7, 4⟩])]).map (fun s => s.player) = ["P3", "P2", "P1"] := by
  refine ⟨List.length_take_le 30 _, rfl, isortOrd_perm _ _, ?_, by decide⟩
  have hs := isortOrd_pairwise scorerLt ?hasym ?hneg (mergeTagScorers golData)
  case hasym =>
    intro a b h
    simp [scorerLt] at h ⊢
    omega
  case hneg =>
    intro a b c h1 h2
    simp [scorerLt] at h1 h2 ⊢
    omega
  have ht := hs.sublist (List.take_sublist 30 _)
  refine ht.imp ?_
  intro a b h
  simp [scorerLt] at h
  omega

/-- C7: both the client matchday-pill sort and the generator's history
ordering are permutations of their input ordered ascending by the numeric
matchday key (the client's concatenated-digits parse, the generator's
strip-prefix SQL cast), and both sort the labels [Jornada 10, Jornada 2,
Jornada 1] as [Jornada 1, Jornada 2, Jornada 10] rather than lexically. -/
theorem jornada_numeric_sort (labels : List String) :
    List.Perm (sortJornadasClient labels) labels ∧
    (sortJornadasClient labels).Pairwise (fun a b => jorNumOf a ≤ jorNumOf b) ∧
    List.Perm (sortJornadasGen labels) labels ∧
    (sortJornadasGen labels).Pairwise (fun a b => genJorKey a ≤ genJorKey b) ∧
    sortJornadasClient ["Jornada 10", "Jornada 2", "Jornada 1"] =
      ["Jornada 1", "Jornada 2", "Jornada 10"] ∧
    sortJornadasGen ["Jornada 10", "Jornada 2", "Jornada 1"] =
      ["Jornada 1", "Jornada 2", "Jornada 10"] := by
  refine ⟨isortOrd_perm _ _, ?_, isortOrd_perm _ _, ?_, by decide, by decide⟩
  · have hs := isortOrd_pairwise (fun a b => decide (jorNumOf a < jorNumOf b))
      ?hasym ?hneg labels
    case hasym =>
      intro a b h
      simp at h ⊢
      omega
    case hneg =>
      intro a b c h1 h2
      simp at h1 h2 ⊢
      omega
    refine hs.imp ?_
    intro a b h
    simp at h
    omega
  · have hs := isortOrd_pairwise (fun a b => decide (genJorKey a < genJorKey b))
      ?hasym ?hneg labels
    case hasym =>
      intro a b h
      simp at h ⊢
      omega
    case hneg =>
      intro a b c h1 h2
      simp at h1 h2 ⊢
      omega
    refine hs.imp ?_
    intro a b h
    simp at h
    omega

/-- A concrete selection state with a non-default matchday selected. -/
def exState : AppState :=
  ⟨"benjamin", "clasif", "", "A2", "Jornada 3", "__GLOBAL__", "grancanaria"⟩

/-- C9 counterexample: switching the active section to the jornadas tab does
not preserve the selected matchday — the handler resets S.jorNum to the
empty string, so the claim that every section transition preserves the
selected matchday is false at this input. -/
theorem sectionTabClick_counterexample :
    (sectionTabClick exState "jornadas").jorNum ≠ exState.jorNum := by
  decide

/-- C9 (amended): a section-tab transition preserves the category, search
term, matchday group, scorer scope and island selection, and preserves the
selected matchday except when the target section is the jornadas tab, in
which case the selected matchday is reset to the empty string. -/
theorem sectionTabClick_frame (s : AppState) (t : String) :
    (sectionTabClick s t).cat = s.cat ∧
    (sectionTabClick s t).search = s.search ∧
    (sectionTabClick s t).jorGroup = s.jorGroup ∧
    (sectionTabClick s t).golGroup = s.golGroup ∧
    (sectionTabClick s t).island = s.island ∧
    (sectionTabClick s t).sect = t ∧
    (t ≠ "jornadas" → (sectionTabClick s t).jorNum = s.jorNum) ∧
    (t = "jornadas" → (sectionTabClick s t).jorNum = "") := by
  unfold sectionTabClick
  by_cases h : t = "jornadas" <;> simp [h]

/-- Witness for the amended C9: switching to the goleadores tab keeps the
selected matchday. -/
theorem sectionTabClick_frame_witness :
    (sectionTabClick exState "goleadores").jorNum = exState.jorNum :=
  (sectionTabClick_frame exState "goleadores").2.2.2.2.2.2.1 (by decide)

end FutbolBase
